import Mathlib

/-!
Shallow embedding of `errors.go` of the jsonschema package: hierarchical
validation-error aggregation (pointer algebra, context attachment,
schema/instance finalization, rendering). Go methods that mutate a node in
place are embedded as functions returning the updated tree; Go's dynamic
`error` interface is embedded as the closed sum `GoError` of the error
types declared in the file.
-/

/-- `ValidationError` (errors.go lines 52-70): the failure-tree node with a
message, an instance pointer, a schema URL, a schema pointer, and the
ordered list of nested causes (`Causes []*ValidationError`). -/
inductive ValidationError : Type where
  | mk (Message InstancePtr SchemaURL SchemaPtr : String)
      (Causes : List ValidationError)

/-- Field accessor for `Message`. -/
def ValidationError.Message : ValidationError → String
  | .mk m _ _ _ _ => m

/-- Field accessor for `InstancePtr`. -/
def ValidationError.InstancePtr : ValidationError → String
  | .mk _ i _ _ _ => i

/-- Field accessor for `SchemaURL`. -/
def ValidationError.SchemaURL : ValidationError → String
  | .mk _ _ u _ _ => u

/-- Field accessor for `SchemaPtr`. -/
def ValidationError.SchemaPtr : ValidationError → String
  | .mk _ _ _ sp _ => sp

/-- Field accessor for `Causes`. -/
def ValidationError.Causes : ValidationError → List ValidationError
  | .mk _ _ _ _ cs => cs

/-- `joinPtr` (errors.go lines 136-144): join two pointer fragments with a
single `/`, the empty fragment acting as identity. -/
def joinPtr (ptr1 ptr2 : String) : String :=
  if ptr1.length = 0 then ptr2
  else if ptr2.length = 0 then ptr1
  else ptr1 ++ "/" ++ ptr2

/-- `absPtr` (errors.go lines 146-154): make a pointer absolute. The Go
code tests byte 0 against `'#'`; since `'#'` is ASCII, that equals testing
the first character, embedded here as `ptr.data.head?`. -/
def absPtr (ptr : String) : String :=
  if ptr = "" then "#"
  else if ptr.data.head? = some '#' then ptr
  else "#/" ++ ptr

/-- `validationError` (errors.go lines 101-103): leaf constructor; the
formatted message is taken already rendered. -/
def validationError (schemaPtr msg : String) : ValidationError :=
  .mk msg "" "" schemaPtr []

mutual
/-- `addContext` (errors.go lines 105-115): prepend `instancePtr` to every
node's `InstancePtr`; prepend `schemaPtr` to `SchemaPtr` only where
`SchemaURL` is still empty; recurse into all causes. -/
def addContext (instancePtr schemaPtr : String) : ValidationError → ValidationError
  | .mk m i u sp cs =>
      .mk m (joinPtr instancePtr i) u
        (if u = "" then joinPtr schemaPtr sp else sp)
        (addContextList instancePtr schemaPtr cs)

/-- The `for _, cause := range ve.Causes` loop of `addContext`. -/
def addContextList (instancePtr schemaPtr : String) :
    List ValidationError → List ValidationError
  | [] => []
  | c :: cs => addContext instancePtr schemaPtr c :: addContextList instancePtr schemaPtr cs
end

/-- Modelled from the spec: the compiler's `Schema` type is not in the
provided source; `finishSchemaContext` consumes only "a schema's own `URL`
(document identity) and `Ptr` (path of this schema within its document)". -/
structure Schema where
  URL : String
  Ptr : String

mutual
/-- `finishSchemaContext` (errors.go lines 117-126): where `SchemaURL` is
still empty, set it to the owning schema's URL, root the schema pointer at
the schema's own pointer, and recurse into the causes; where it is already
set, leave the whole subtree untouched. -/
def finishSchemaContext (s : Schema) : ValidationError → ValidationError
  | .mk m i u sp cs =>
      if u.length = 0 then
        .mk m i s.URL (joinPtr s.Ptr sp) (finishSchemaContextList s cs)
      else
        .mk m i u sp cs

/-- The `for _, cause := range ve.Causes` loop of `finishSchemaContext`. -/
def finishSchemaContextList (s : Schema) :
    List ValidationError → List ValidationError
  | [] => []
  | c :: cs => finishSchemaContext s c :: finishSchemaContextList s cs
end

mutual
/-- `finishInstanceContext` (errors.go lines 128-134): make every node's
`InstancePtr` absolute, unconditionally, over the whole tree. -/
def finishInstanceContext : ValidationError → ValidationError
  | .mk m i u sp cs => .mk m (absPtr i) u sp (finishInstanceContextList cs)

/-- The `for _, cause := range ve.Causes` loop of `finishInstanceContext`. -/
def finishInstanceContextList : List ValidationError → List ValidationError
  | [] => []
  | c :: cs => finishInstanceContext c :: finishInstanceContextList cs
end

/-- `Error` (errors.go lines 87-89): `fmt.Sprintf("I[%s] S[%s] %s", ...)`. -/
def ValidationError.Error : ValidationError → String
  | .mk m i _ sp _ => "I[" ++ i ++ "] S[" ++ sp ++ "] " ++ m

/-- Go `strings.Split(s, "\n")` (errors.go line 94): split around every
newline; embedded as splitting the character list on `'\n'`. -/
def splitLines (s : String) : List String :=
  (s.data.splitOn '\n').map String.mk

/-- The inner loop of `GoString` (errors.go lines 93-97): append every line
of a child rendering to `msg`, each preceded by a newline and two spaces. -/
def appendIndented (msg s : String) : String :=
  (splitLines s).foldl (fun acc line => acc ++ "\n  " ++ line) msg

mutual
/-- `GoString` (errors.go lines 91-99): the node's `Error` line followed by
every cause's rendering, indented two spaces per level. -/
def ValidationError.GoString : ValidationError → String
  | .mk m i u sp cs => goStringList cs (ValidationError.Error (.mk m i u sp cs))

/-- The `for _, c := range ve.Causes` loop of `GoString`. -/
def goStringList : List ValidationError → String → String
  | [], msg => msg
  | c :: cs, msg => goStringList cs (appendIndented msg (ValidationError.GoString c))
end

mutual
/-- All nodes of a tree: the node itself followed by the nodes of every
cause, depth first (auxiliary, for quantifying over "every descendant"). -/
def nodes : ValidationError → List ValidationError
  | .mk m i u sp cs => .mk m i u sp cs :: nodesList cs

/-- Nodes of a forest, in order. -/
def nodesList : List ValidationError → List ValidationError
  | [] => []
  | c :: cs => nodes c ++ nodesList cs
end

/-! ### Pointer-algebra lemmas -/

theorem str_length_eq_zero (x : String) : x.length = 0 ↔ x = "" := by
  constructor
  · intro h
    apply String.ext
    have hd : x.data.length = 0 := h
    simpa using List.length_eq_zero.mp hd
  · intro h
    subst h
    rfl

theorem joinPtr_empty_left (x : String) : joinPtr "" x = x := by
  unfold joinPtr
  rw [if_pos]
  decide

theorem joinPtr_empty_right (x : String) : joinPtr x "" = x := by
  unfold joinPtr
  by_cases h : x.length = 0
  · rw [if_pos h]
    exact ((str_length_eq_zero x).mp h).symm
  · rw [if_neg h, if_pos]
    decide

theorem joinPtr_of_ne (a b : String) (ha : a ≠ "") (hb : b ≠ "") :
    joinPtr a b = a ++ "/" ++ b := by
  unfold joinPtr
  rw [if_neg (fun h => ha ((str_length_eq_zero a).mp h)),
    if_neg (fun h => hb ((str_length_eq_zero b).mp h))]

theorem joinPtr_ne_empty (a b : String) (ha : a ≠ "") (hb : b ≠ "") :
    joinPtr a b ≠ "" := by
  rw [joinPtr_of_ne a b ha hb]
  intro h
  have hd : (a ++ "/" ++ b).data = [] := by rw [h]
  rw [String.data_append, String.data_append] at hd
  simp at hd

theorem joinPtr_assoc (a b c : String) :
    joinPtr (joinPtr a b) c = joinPtr a (joinPtr b c) := by
  by_cases ha : a = ""
  · subst ha
    rw [joinPtr_empty_left, joinPtr_empty_left]
  · by_cases hb : b = ""
    · subst hb
      rw [joinPtr_empty_right, joinPtr_empty_left]
    · by_cases hc : c = ""
      · subst hc
        rw [joinPtr_empty_right, joinPtr_empty_right]
      · have hab : joinPtr a b ≠ "" := joinPtr_ne_empty a b ha hb
        have hbc : joinPtr b c ≠ "" := joinPtr_ne_empty b c hb hc
        rw [joinPtr_of_ne _ c hab hc, joinPtr_of_ne a _ ha hbc,
          joinPtr_of_ne a b ha hb, joinPtr_of_ne b c hb hc]
        simp [String.append_assoc]

theorem absPtr_head (p : String) : (absPtr p).data.head? = some '#' := by
  unfold absPtr
  by_cases h0 : p = ""
  · rw [if_pos h0]
    decide
  · rw [if_neg h0]
    by_cases h1 : p.data.head? = some '#'
    · rw [if_pos h1]
      exact h1
    · rw [if_neg h1, String.data_append]
      rfl

theorem absPtr_of_head (p : String) (h : p.data.head? = some '#') : absPtr p = p := by
  unfold absPtr
  have h0 : p ≠ "" := by
    intro he
    subst he
    exact absurd h (by decide)
  rw [if_neg h0, if_pos h]

/-- C7: absPtr is total and satisfies the three case equations (empty goes
to the root marker, a path already starting with the root marker is
unchanged, anything else gets the marker and a separator prefixed), and it
is idempotent. -/
theorem spec_C7_absPtr_cases_and_idempotent :
    absPtr "" = "#" ∧
    (∀ p : String, p.data.head? = some '#' → absPtr p = p) ∧
    (∀ p : String, p ≠ "" → p.data.head? ≠ some '#' → absPtr p = "#/" ++ p) ∧
    (∀ p : String, absPtr (absPtr p) = absPtr p) := by
  refine ⟨by decide, fun p h => absPtr_of_head p h, fun p h0 h1 => ?_,
    fun p => absPtr_of_head _ (absPtr_head p)⟩
  unfold absPtr
  rw [if_neg h0, if_neg h1]

/-- Witness for C7 at concrete inputs. -/
theorem spec_C7_witness :
    absPtr "#/a" = "#/a" ∧ absPtr "a" = "#/a" ∧ absPtr (absPtr "a") = absPtr "a" :=
  ⟨spec_C7_absPtr_cases_and_idempotent.2.1 "#/a" (by decide),
    spec_C7_absPtr_cases_and_idempotent.2.2.1 "a" (by decide) (by decide),
    spec_C7_absPtr_cases_and_idempotent.2.2.2 "a"⟩

/-- C8: joinPtr is total, the empty path is a two-sided identity, and for
two non-empty fragments exactly one separator is inserted between them. -/
theorem spec_C8_joinPtr_identity_and_separator :
    (∀ x : String, joinPtr "" x = x) ∧
    (∀ x : String, joinPtr x "" = x) ∧
    (∀ a b : String, a ≠ "" → b ≠ "" → joinPtr a b = a ++ "/" ++ b) :=
  ⟨joinPtr_empty_left, joinPtr_empty_right, joinPtr_of_ne⟩

/-- Witness for C8 at concrete inputs. -/
theorem spec_C8_witness :
    joinPtr "" "x" = "x" ∧ joinPtr "x" "" = "x" ∧ joinPtr "a" "b" = "a" ++ "/" ++ "b" :=
  ⟨spec_C8_joinPtr_identity_and_separator.1 "x",
    spec_C8_joinPtr_identity_and_separator.2.1 "x",
    spec_C8_joinPtr_identity_and_separator.2.2 "a" "b" (by decide) (by decide)⟩

/-! ### Context attachment over whole trees -/

/-- The node-by-node effect of `addContext`: message and URL untouched,
instance pointer prefixed unconditionally, schema pointer prefixed only
when the URL is empty, number of causes preserved. -/
def attachRel (instancePtr schemaPtr : String) (a b : ValidationError) : Prop :=
  a.Message = b.Message ∧ a.SchemaURL = b.SchemaURL ∧
  a.InstancePtr = joinPtr instancePtr b.InstancePtr ∧
  a.SchemaPtr = (if b.SchemaURL = "" then joinPtr schemaPtr b.SchemaPtr else b.SchemaPtr) ∧
  a.Causes.length = b.Causes.length

theorem addContextList_length (instancePtr schemaPtr : String) :
    ∀ l : List ValidationError, (addContextList instancePtr schemaPtr l).length = l.length
  | [] => by rw [addContextList]
  | c :: cs => by
    rw [addContextList]
    simp [addContextList_length instancePtr schemaPtr cs]

mutual
theorem addContext_nodes_rel (instancePtr schemaPtr : String) :
    ∀ ve : ValidationError, List.Forall₂ (attachRel instancePtr schemaPtr)
      (nodes (addContext instancePtr schemaPtr ve)) (nodes ve)
  | .mk m i u sp cs => by
    rw [addContext, nodes, nodes]
    exact List.Forall₂.cons
      ⟨rfl, rfl, rfl, rfl, addContextList_length instancePtr schemaPtr cs⟩
      (addContextList_nodes_rel instancePtr schemaPtr cs)

theorem addContextList_nodes_rel (instancePtr schemaPtr : String) :
    ∀ l : List ValidationError, List.Forall₂ (attachRel instancePtr schemaPtr)
      (nodesList (addContextList instancePtr schemaPtr l)) (nodesList l)
  | [] => by
    rw [addContextList, nodesList]
    exact List.Forall₂.nil
  | c :: cs => by
    rw [addContextList, nodesList, nodesList]
    exact List.rel_append (addContext_nodes_rel instancePtr schemaPtr c)
      (addContextList_nodes_rel instancePtr schemaPtr cs)
end

theorem forall₂_map_eq {α β γ : Type} {R : α → β → Prop} {f : α → γ} {g : β → γ}
    (H : ∀ a b, R a b → f a = g b) :
    ∀ {l₁ : List α} {l₂ : List β}, List.Forall₂ R l₁ l₂ → l₁.map f = l₂.map g := by
  intro l₁ l₂ h
  induction h with
  | nil => rfl
  | cons hab _ ih => simp only [List.map_cons, H _ _ hab, ih]

/-- C3: `addContext` joins the instance prefix in front of `InstancePtr`
on the node and on every descendant unconditionally, joins the schema
prefix in front of `SchemaPtr` only on nodes whose `SchemaURL` is still
empty, and changes nothing else: message, URL and the shape of the tree
(number of causes, node order) are preserved, node by node. -/
theorem spec_C3_addContext_per_node (instancePtr schemaPtr : String) (ve : ValidationError) :
    List.Forall₂ (fun a b =>
        a.Message = b.Message ∧ a.SchemaURL = b.SchemaURL ∧
        a.InstancePtr = joinPtr instancePtr b.InstancePtr ∧
        a.SchemaPtr = (if b.SchemaURL = "" then joinPtr schemaPtr b.SchemaPtr
          else b.SchemaPtr) ∧
        a.Causes.length = b.Causes.length)
      (nodes (addContext instancePtr schemaPtr ve)) (nodes ve) :=
  addContext_nodes_rel instancePtr schemaPtr ve

theorem addContext_map_instance (instancePtr schemaPtr : String) (ve : ValidationError) :
    (nodes (addContext instancePtr schemaPtr ve)).map ValidationError.InstancePtr
      = (nodes ve).map (fun n => joinPtr instancePtr n.InstancePtr) :=
  forall₂_map_eq (fun _ _ r => r.2.2.1) (addContext_nodes_rel instancePtr schemaPtr ve)

/-- C5: attaching context twice, with prefix `p1` first (innermost) and
`p2` second, gives every node the same `InstancePtr` as one attachment
with prefix `joinPtr p2 p1`, whatever the schema prefixes are. -/
theorem spec_C5_addContext_compose (p1 p2 sp1 sp2 sp : String) (ve : ValidationError) :
    (nodes (addContext p2 sp2 (addContext p1 sp1 ve))).map ValidationError.InstancePtr
      = (nodes (addContext (joinPtr p2 p1) sp ve)).map ValidationError.InstancePtr := by
  rw [addContext_map_instance, addContext_map_instance]
  have h2 : (nodes (addContext p1 sp1 ve)).map (fun n => joinPtr p2 n.InstancePtr)
      = (nodes ve).map (fun n => joinPtr p2 (joinPtr p1 n.InstancePtr)) :=
    forall₂_map_eq (fun a b r => by rw [r.2.2.1]) (addContext_nodes_rel p1 sp1 ve)
  rw [h2]
  apply List.map_congr_left
  intro n _
  rw [joinPtr_assoc]

/-! ### Schema-context finalization -/

theorem finishSchemaContext_eq_self (s : Schema) :
    ∀ ve : ValidationError, ve.SchemaURL ≠ "" → finishSchemaContext s ve = ve
  | .mk m i u sp cs => by
    intro h
    rw [finishSchemaContext, if_neg]
    intro hl
    exact h ((str_length_eq_zero u).mp hl)

theorem mem_finishSchemaContextList (s : Schema) {a : ValidationError}
    (heq : finishSchemaContext s a = a) :
    ∀ {l : List ValidationError}, a ∈ l → a ∈ finishSchemaContextList s l := by
  intro l
  induction l with
  | nil => intro h; cases h
  | cons c cs ih =>
    intro hmem
    rw [finishSchemaContextList]
    cases hmem with
    | head =>
      rw [heq]
      exact List.mem_cons_self _ _
    | tail _ h => exact List.mem_cons_of_mem _ (ih h)

/-- C2: `finishSchemaContext` is first-writer-wins. A node whose
`SchemaURL` is already non-empty is returned entirely unchanged (URL,
schema pointer and all causes, since the recursion does not descend), and
such a pre-finalized child survives unchanged inside a parent whose
finalization against another schema does descend. -/
theorem spec_C2_first_writer_wins (s : Schema) (ve : ValidationError)
    (h : ve.SchemaURL ≠ "") :
    finishSchemaContext s ve = ve ∧
    ∀ (m i sp : String) (cs : List ValidationError), ve ∈ cs →
      ve ∈ (finishSchemaContext s (.mk m i "" sp cs)).Causes := by
  refine ⟨finishSchemaContext_eq_self s ve h, fun m i sp cs hmem => ?_⟩
  rw [finishSchemaContext, if_pos (by decide)]
  exact mem_finishSchemaContextList s (finishSchemaContext_eq_self s ve h) hmem

/-- Witness for C2: a child pre-finalized against URL `B` is untouched by a
later finalization against schema `A`, directly and as a cause. -/
theorem spec_C2_witness :
    finishSchemaContext ⟨"A", "#"⟩ (.mk "m" "" "B" "#/x" []) = .mk "m" "" "B" "#/x" [] ∧
    (ValidationError.mk "m" "" "B" "#/x" []) ∈
      (finishSchemaContext ⟨"A", "#"⟩
        (.mk "p" "" "" "kw" [.mk "m" "" "B" "#/x" []])).Causes := by
  have h := spec_C2_first_writer_wins ⟨"A", "#"⟩ (.mk "m" "" "B" "#/x" []) (by decide)
  exact ⟨h.1, h.2 "p" "" "kw" [.mk "m" "" "B" "#/x" []] (List.mem_singleton.mpr rfl)⟩

/-! ### Instance-context finalization -/

mutual
theorem finishInstanceContext_heads :
    ∀ ve : ValidationError, ∀ n ∈ nodes (finishInstanceContext ve),
      n.InstancePtr.data.head? = some '#'
  | .mk m i u sp cs => by
    intro n hn
    rw [finishInstanceContext, nodes] at hn
    cases hn with
    | head => exact absPtr_head i
    | tail _ h => exact finishInstanceContextList_heads cs n h

theorem finishInstanceContextList_heads :
    ∀ l : List ValidationError, ∀ n ∈ nodesList (finishInstanceContextList l),
      n.InstancePtr.data.head? = some '#'
  | [] => by
    intro n hn
    rw [finishInstanceContextList, nodesList] at hn
    cases hn
  | c :: cs => by
    intro n hn
    rw [finishInstanceContextList, nodesList] at hn
    rcases List.mem_append.mp hn with h | h
    · exact finishInstanceContext_heads c n h
    · exact finishInstanceContextList_heads cs n h
end

/-- C6: after one `finishInstanceContext` call, every node of the tree has
an `InstancePtr` that starts with the root marker `#`. -/
theorem spec_C6_instance_paths_rooted (ve : ValidationError) :
    ∀ n ∈ nodes (finishInstanceContext ve), n.InstancePtr.data.head? = some '#' :=
  finishInstanceContext_heads ve

/-- Witness for C6: the root and the single cause of a concrete finalized
tree both start with `#`. -/
theorem spec_C6_witness :
    (ValidationError.mk "m" "#/a" "" "s" [.mk "c" "#" "" "t" []]).InstancePtr.data.head?
        = some '#' ∧
    (ValidationError.mk "c" "#" "" "t" []).InstancePtr.data.head? = some '#' :=
  ⟨spec_C6_instance_paths_rooted (.mk "m" "a" "" "s" [.mk "c" "" "" "t" []]) _
      (List.Mem.head _),
    spec_C6_instance_paths_rooted (.mk "m" "a" "" "s" [.mk "c" "" "" "t" []]) _
      (List.Mem.tail _ (List.Mem.head _))⟩

/-! ### Schema-URL coverage after finalization -/

mutual
/-- Every node of the tree has a non-empty `SchemaURL`. -/
def allURLSet : ValidationError → Bool
  | .mk _ _ u _ cs => !(u == "") && allURLSetList cs

/-- `allURLSet` over a forest. -/
def allURLSetList : List ValidationError → Bool
  | [] => true
  | c :: cs => allURLSet c && allURLSetList cs
end

mutual
/-- The invariant `finishSchemaContext` itself maintains: wherever a node
already has a non-empty `SchemaURL`, its whole subtree has one too. -/
def urlHereditary : ValidationError → Bool
  | .mk _ _ u _ cs => if u == "" then urlHereditaryList cs else allURLSetList cs

/-- `urlHereditary` over a forest. -/
def urlHereditaryList : List ValidationError → Bool
  | [] => true
  | c :: cs => urlHereditary c && urlHereditaryList cs
end

mutual
theorem finishSchemaContext_allURLSet (s : Schema) (hs : s.URL ≠ "") :
    ∀ ve : ValidationError, urlHereditary ve = true →
      allURLSet (finishSchemaContext s ve) = true
  | .mk m i u sp cs => by
    intro hh
    rw [urlHereditary] at hh
    rw [finishSchemaContext]
    by_cases hu : u = ""
    · rw [if_pos ((str_length_eq_zero u).mpr hu)]
      rw [allURLSet, Bool.and_eq_true]
      rw [if_pos (beq_iff_eq.mpr hu)] at hh
      exact ⟨by simp [hs], finishSchemaContextList_allURLSet s hs cs hh⟩
    · rw [if_neg (fun hl => hu ((str_length_eq_zero u).mp hl))]
      rw [allURLSet, Bool.and_eq_true]
      rw [if_neg (fun hb => hu (beq_iff_eq.mp hb))] at hh
      exact ⟨by simp [hu], hh⟩

theorem finishSchemaContextList_allURLSet (s : Schema) (hs : s.URL ≠ "") :
    ∀ l : List ValidationError, urlHereditaryList l = true →
      allURLSetList (finishSchemaContextList s l) = true
  | [] => by
    intro hh
    rw [finishSchemaContextList, allURLSetList]
  | c :: cs => by
    intro hh
    rw [urlHereditaryList, Bool.and_eq_true] at hh
    rw [finishSchemaContextList, allURLSetList, Bool.and_eq_true]
    exact ⟨finishSchemaContext_allURLSet s hs c hh.1,
      finishSchemaContextList_allURLSet s hs cs hh.2⟩
end

mutual
theorem allURLSet_nodes :
    ∀ ve : ValidationError, allURLSet ve = true → ∀ n ∈ nodes ve, n.SchemaURL ≠ ""
  | .mk m i u sp cs => by
    intro hall n hn
    rw [allURLSet, Bool.and_eq_true] at hall
    rw [nodes] at hn
    cases hn with
    | head =>
      show u ≠ ""
      intro he
      subst he
      simp at hall
    | tail _ h => exact allURLSetList_nodes cs hall.2 n h

theorem allURLSetList_nodes :
    ∀ l : List ValidationError, allURLSetList l = true →
      ∀ n ∈ nodesList l, n.SchemaURL ≠ ""
  | [] => by
    intro hall n hn
    rw [nodesList] at hn
    cases hn
  | c :: cs => by
    intro hall n hn
    rw [allURLSetList, Bool.and_eq_true] at hall
    rw [nodesList] at hn
    rcases List.mem_append.mp hn with h | h
    · exact allURLSet_nodes c hall.1 n h
    · exact allURLSetList_nodes cs hall.2 n h
end

/-- C4 fails as stated: in a tree whose root already carries a URL but
whose child does not, finalization at the root schema does not descend, so
the child keeps its empty `SchemaURL`. -/
theorem spec_C4_counterexample :
    (Schema.mk "A" "#").URL ≠ "" ∧
    ∃ n ∈ nodes (finishSchemaContext ⟨"A", "#"⟩
        (.mk "p" "" "B" "#/x" [.mk "c" "" "" "y" []])),
      n.SchemaURL = "" := by
  refine ⟨by decide, .mk "c" "" "" "y" [], ?_, rfl⟩
  have hp : finishSchemaContext ⟨"A", "#"⟩ (.mk "p" "" "B" "#/x" [.mk "c" "" "" "y" []])
      = .mk "p" "" "B" "#/x" [.mk "c" "" "" "y" []] :=
    finishSchemaContext_eq_self _ _ (by decide)
  rw [hp]
  exact List.Mem.tail _ (List.Mem.head _)

/-- C4 (amended): for any tree satisfying the hereditary invariant that a
node with non-empty `SchemaURL` has a fully URL-assigned subtree — the
invariant `finishSchemaContext` itself maintains — one `finishSchemaContext`
call at a root schema with non-empty URL leaves every node with a
non-empty `SchemaURL`. -/
theorem spec_C4_all_urls_after_finish (s : Schema) (ve : ValidationError)
    (hs : s.URL ≠ "") (hh : urlHereditary ve = true) :
    ∀ n ∈ nodes (finishSchemaContext s ve), n.SchemaURL ≠ "" :=
  allURLSet_nodes _ (finishSchemaContext_allURLSet s hs ve hh)

/-- Witness for C4 (amended) at a concrete two-node tree. -/
theorem spec_C4_witness :
    (ValidationError.mk "p" "" "A" "#/kw" [.mk "c" "" "A" "#/y" []]).SchemaURL ≠ "" ∧
    (ValidationError.mk "c" "" "A" "#/y" []).SchemaURL ≠ "" :=
  ⟨spec_C4_all_urls_after_finish ⟨"A", "#"⟩ (.mk "p" "" "" "kw" [.mk "c" "" "" "y" []])
      (by decide) rfl _ (List.Mem.head _),
    spec_C4_all_urls_after_finish ⟨"A", "#"⟩ (.mk "p" "" "" "kw" [.mk "c" "" "" "y" []])
      (by decide) rfl _ (List.Mem.tail _ (List.Mem.head _))⟩

/-! ### Rendering -/

theorem splitLines_single (s : String) (h : Char.ofNat 10 ∉ s.data) :
    splitLines s = [s] := by
  unfold splitLines
  rw [List.splitOn, List.splitOnP_eq_single]
  · rfl
  · intro x hx hbeq
    exact h (beq_iff_eq.mp hbeq ▸ hx)

theorem appendIndented_single (msg s : String) (h : Char.ofNat 10 ∉ s.data) :
    appendIndented msg s = msg ++ "\n  " ++ s := by
  rw [appendIndented, splitLines_single s h]
  rfl

/-- C9: rendering a parent with exactly two leaf causes, each of whose
single-node renderings is newline-free, yields the parent's single-node
rendering followed by the two causes' single-node renderings in insertion
order, each on its own line indented two spaces more than the parent. -/
theorem spec_C9_render_two_causes (pm pi pu ps : String) (c1 c2 : ValidationError)
    (hc1 : c1.Causes = []) (hc2 : c2.Causes = [])
    (hn1 : Char.ofNat 10 ∉ (ValidationError.Error c1).data)
    (hn2 : Char.ofNat 10 ∉ (ValidationError.Error c2).data) :
    ValidationError.GoString (.mk pm pi pu ps [c1, c2])
      = ValidationError.Error (.mk pm pi pu ps [c1, c2])
        ++ "\n  " ++ ValidationError.Error c1
        ++ "\n  " ++ ValidationError.Error c2 := by
  obtain ⟨m1, i1, u1, s1, cs1⟩ := c1
  obtain ⟨m2, i2, u2, s2, cs2⟩ := c2
  have e1 : cs1 = [] := hc1
  have e2 : cs2 = [] := hc2
  subst e1
  subst e2
  rw [show ValidationError.GoString
        (.mk pm pi pu ps [.mk m1 i1 u1 s1 [], .mk m2 i2 u2 s2 []])
      = appendIndented (appendIndented
          (ValidationError.Error (.mk pm pi pu ps [.mk m1 i1 u1 s1 [], .mk m2 i2 u2 s2 []]))
          (ValidationError.Error (.mk m1 i1 u1 s1 [])))
          (ValidationError.Error (.mk m2 i2 u2 s2 [])) from rfl]
  rw [appendIndented_single _ _ hn1, appendIndented_single _ _ hn2]

/-- Witness for C9 at a concrete parent with two concrete leaf causes. -/
theorem spec_C9_witness :
    ValidationError.GoString (.mk "pm" "pi" "" "ps" [.mk "am" "ai" "" "as" [],
        .mk "bm" "bi" "" "bs" []])
      = "I[pi] S[ps] pm" ++ "\n  " ++ "I[ai] S[as] am" ++ "\n  " ++ "I[bi] S[bs] bm" := by
  have h := spec_C9_render_two_causes "pm" "pi" "" "ps"
    (.mk "am" "ai" "" "as" []) (.mk "bm" "bi" "" "bs" []) rfl rfl
    (by decide) (by decide)
  rw [h]
  rfl

/-! ### End-to-end external-reference scenario -/

/-- C1: a failure created inside the external document `defs.json` at the
schema-local pointer `/required` (per the spec's constructor convention,
the relative fragment `"required"`), finalized first against that external
schema (URL `defs.json`, root pointer `#`, modelled from the spec), then
attached by the referencing parent under instance fragment `addr`, then
finalized against the root schema and instance-finalized, ends with
instance path `#/addr`, schema URL `defs.json` and schema path
`#/required`; the root schema's URL appears nowhere in the (leaf) node. -/
theorem spec_C1_external_ref_scenario :
    finishInstanceContext (finishSchemaContext ⟨"http://example.com/root.json", "#"⟩
        (addContext "addr" "properties/addr"
          (finishSchemaContext ⟨"defs.json", "#"⟩
            (validationError "required" "missing properties: street"))))
      = .mk "missing properties: street" "#/addr" "defs.json" "#/required" [] ∧
    ("defs.json" : String) ≠ "http://example.com/root.json" :=
  ⟨rfl, by decide⟩

/-! ### Downcast safety at the `error` interface -/

/-- The Go `error` values that errors.go can see: the four error types the
file declares. `SchemaError` wraps an inner error. -/
inductive GoError : Type where
  | invalidJSONType (s : String)
  | infiniteLoop (s : String)
  | schemaError (url : String) (e : GoError)
  | validation (ve : ValidationError)

/-- The Go type assertion `err.(*ValidationError)` (errors.go lines 75,
106, 118, 129): succeeds exactly on a `*ValidationError`; the panic on any
other dynamic type is embedded as `none`. -/
def asValidationError : GoError → Option ValidationError
  | .validation ve => some ve
  | _ => none

/-- `addContext` taken at the `error` interface, as in the source. -/
def addContextErr (instancePtr schemaPtr : String) (err : GoError) : Option GoError :=
  match asValidationError err with
  | some ve => some (.validation (addContext instancePtr schemaPtr ve))
  | none => none

/-- `finishSchemaContext` taken at the `error` interface. -/
def finishSchemaContextErr (err : GoError) (s : Schema) : Option GoError :=
  match asValidationError err with
  | some ve => some (.validation (finishSchemaContext s ve))
  | none => none

/-- `finishInstanceContext` taken at the `error` interface. -/
def finishInstanceContextErr (err : GoError) : Option GoError :=
  match asValidationError err with
  | some ve => some (.validation (finishInstanceContext ve))
  | none => none

/-- `add` (errors.go lines 72-78): give each cause the parent's context
and append the downcast cause to `Causes`; the panic on a cause that is
not a `*ValidationError` is embedded as `none`. -/
def ValidationError.add : ValidationError → List GoError → Option ValidationError
  | ve, [] => some ve
  | .mk m i u sp cs, cause :: rest =>
    match asValidationError cause with
    | some cve =>
        ValidationError.add (.mk m i u sp (cs ++ [addContext i sp cve])) rest
    | none => none

/-- C10: the downcasts in `addContext`, `finishSchemaContext` and
`finishInstanceContext` never fail on a `ValidationError` argument (the
operations are total there), fail on every other error value, and `add`
is total when every appended cause is a `ValidationError`. -/
theorem spec_C10_downcast_safety (instancePtr schemaPtr : String) (s : Schema)
    (e : GoError) :
    ((∃ ve, e = .validation ve) →
      (addContextErr instancePtr schemaPtr e).isSome = true ∧
      (finishSchemaContextErr e s).isSome = true ∧
      (finishInstanceContextErr e).isSome = true) ∧
    ((∀ ve, e ≠ .validation ve) →
      addContextErr instancePtr schemaPtr e = none ∧
      finishSchemaContextErr e s = none ∧
      finishInstanceContextErr e = none) ∧
    (∀ (ve : ValidationError) (causes : List GoError),
      (∀ c ∈ causes, ∃ cve, c = .validation cve) →
        (ValidationError.add ve causes).isSome = true) := by
  refine ⟨?_, ?_, ?_⟩
  · rintro ⟨ve, rfl⟩
    exact ⟨rfl, rfl, rfl⟩
  · intro hne
    cases e with
    | validation ve => exact absurd rfl (hne ve)
    | invalidJSONType s0 => exact ⟨rfl, rfl, rfl⟩
    | infiniteLoop s0 => exact ⟨rfl, rfl, rfl⟩
    | schemaError url e0 => exact ⟨rfl, rfl, rfl⟩
  · intro ve causes
    induction causes generalizing ve with
    | nil =>
      intro _
      obtain ⟨m, i, u, sp, cs⟩ := ve
      rfl
    | cons c rest ih =>
      intro h
      obtain ⟨cve, rfl⟩ := h c (List.mem_cons_self c rest)
      obtain ⟨m, i, u, sp, cs⟩ := ve
      exact ih (.mk m i u sp (cs ++ [addContext i sp cve]))
        (fun x hx => h x (List.mem_cons_of_mem _ hx))

/-- Witness for C10 at concrete error values. -/
theorem spec_C10_witness :
    (addContextErr "i" "s" (.validation (.mk "m" "" "" "k" []))).isSome = true ∧
    addContextErr "i" "s" (.invalidJSONType "chan") = none ∧
    (ValidationError.add (.mk "m" "" "" "k" [])
      [.validation (.mk "c" "" "" "t" [])]).isSome = true := by
  have h1 := spec_C10_downcast_safety "i" "s" ⟨"u", "#"⟩
    (.validation (.mk "m" "" "" "k" []))
  have h2 := spec_C10_downcast_safety "i" "s" ⟨"u", "#"⟩ (.invalidJSONType "chan")
  refine ⟨(h1.1 ⟨_, rfl⟩).1, (h2.2.1 (fun ve hv => GoError.noConfusion hv)).1,
    h1.2.2 _ _ (fun c hc => ?_)⟩
  cases hc with
  | head => exact ⟨_, rfl⟩
  | tail _ hx => cases hx
